import Mathlib

/-!
# Verification of the svc-registry liveness directory and daemon bootstrap guard

Shallow embedding of the `Registry` class and the `discoveryFileIsStale`
startup guard of the svc-registry daemon (`lib/daemon.js`), together with
the HTTP heartbeat route wrapper.

Modelling conventions:
* A JavaScript `Map` is an insertion-ordered association list
  `List (String × _)`; `Map.get` returns the first binding, `Map.set`
  overwrites an existing binding in place (keeping its position) or appends
  a fresh binding at the end, `Map.delete` removes the binding.
* Request-body fields that may be absent (`undefined`/`null`) are `Option`s;
  JavaScript truthiness of a string is "present and non-empty", of a number
  "present and non-zero".
* `Date.now()` is passed in explicitly as an integer `now` parameter, and the
  random suffix `Math.floor(Math.random() * 1e6)` as an explicit `rand`
  parameter.
* A method that can `throw` returns `Registry × Except String _`: the
  Express route handlers catch the exception and answer 400, leaving the
  registry untouched (the methods throw before mutating anything).
-/

/-- JavaScript truthiness of an optional string field: present and non-empty. -/
def truthyS : Option String → Bool
  | none => false
  | some s => s != ""

/-- JavaScript truthiness of an optional numeric field: present and non-zero. -/
def truthyI : Option Int → Bool
  | none => false
  | some n => n != 0

/-- `Map.get k`: first binding of `k` in the association list. -/
def getA {α : Type} : List (String × α) → String → Option α
  | [], _ => none
  | (k', v) :: rest, k => if k' = k then some v else getA rest k

/-- `Map.set k v`: overwrite the binding of `k` in place, or append it. -/
def setA {α : Type} : List (String × α) → String → α → List (String × α)
  | [], k, v => [(k, v)]
  | (k', v') :: rest, k, v =>
    if k' = k then (k, v) :: rest else (k', v') :: setA rest k v

/-- `Map.delete k`: remove the binding of `k`. -/
def delA {α : Type} : List (String × α) → String → List (String × α)
  | [], _ => []
  | (k', v) :: rest, k => if k' = k then rest else (k', v) :: delA rest k

/-- A registered service instance (the object built by `Registry.register`). -/
structure Instance where
  id : String
  name : String
  host : String
  port : Int
  pid : Option Int
  meta : List (String × String)
  lastSeen : Int
deriving Repr, DecidableEq

/-- Per-service instance map: `Map(instanceId -> instance)`. -/
abbrev InstMap := List (String × Instance)

/-- The registry state: `Map(name -> Map(instanceId -> instance))` plus the TTL. -/
structure Registry where
  services : List (String × InstMap)
  ttl : Int
deriving Repr, DecidableEq

/-- Body of a POST /register request, as destructured by `Registry.register`. -/
structure RegisterArgs where
  name : Option String
  host : Option String
  port : Option Int
  pid : Option Int
  id : Option String
  meta : List (String × String)
deriving Repr, DecidableEq

/-- The generated instance id `host:port:random-suffix`. -/
def genInstanceId (host : String) (port : Int) (rand : Nat) : String :=
  host ++ ":" ++ toString port ++ ":" ++ toString rand

/-- `Registry.register`: validate `name` and `port` (JS truthiness plus a
typeof check), ensure the service map exists, and insert the instance under
a caller-supplied truthy id or a generated one, with `lastSeen = now`. -/
def Registry.register (r : Registry) (a : RegisterArgs) (now : Int) (rand : Nat) :
    Registry × Except String Instance :=
  if !(truthyS a.name) then (r, Except.error "name required")
  else if !(truthyI a.port) then (r, Except.error "port required as number")
  else
    let name := a.name.getD ""
    let host := match a.host with
      | some h => h
      | none => "127.0.0.1"
    let port := a.port.getD 0
    let instanceId := match a.id with
      | some s => if s = "" then genInstanceId host port rand else s
      | none => genInstanceId host port rand
    let inst : Instance :=
      { id := instanceId, name := name, host := host, port := port,
        pid := a.pid, meta := a.meta, lastSeen := now }
    let m := match getA r.services name with
      | some m => m
      | none => []
    ({ services := setA r.services name (setA m instanceId inst), ttl := r.ttl },
     Except.ok inst)

/-- The `host` local of a register call (`host = HOST` default). -/
def regHost (a : RegisterArgs) : String :=
  match a.host with
  | some h => h
  | none => "127.0.0.1"

/-- The `instanceId` local of a register call (`id || generated`). -/
def regId (a : RegisterArgs) (rand : Nat) : String :=
  match a.id with
  | some s => if s = "" then genInstanceId (regHost a) (a.port.getD 0) rand else s
  | none => genInstanceId (regHost a) (a.port.getD 0) rand

/-- The instance object a successful register call stores and returns. -/
def regInstance (a : RegisterArgs) (now : Int) (rand : Nat) : Instance :=
  { id := regId a rand, name := a.name.getD "", host := regHost a,
    port := a.port.getD 0, pid := a.pid, meta := a.meta, lastSeen := now }

/-- The service map a register call starts from (`_ensureServiceMap` + get). -/
def prevMap (r : Registry) (a : RegisterArgs) : InstMap :=
  match getA r.services (a.name.getD "") with
  | some m => m
  | none => []

/-- `Registry.heartbeat`: require truthy `name` and `id`; return `null` when
either is unknown, otherwise refresh the instance's `lastSeen`. -/
def Registry.heartbeat (r : Registry) (name id : Option String) (now : Int) :
    Registry × Except String (Option Instance) :=
  if !(truthyS name && truthyS id) then
    (r, Except.error "name and id required for heartbeat")
  else
    let n := name.getD ""
    let i := id.getD ""
    match getA r.services n with
    | none => (r, Except.ok none)
    | some m =>
      match getA m i with
      | none => (r, Except.ok none)
      | some inst =>
        let inst' := { inst with lastSeen := now }
        ({ services := setA r.services n (setA m i inst'), ttl := r.ttl },
         Except.ok (some inst'))

/-- Body of a POST /unregister request. -/
structure UnregisterArgs where
  name : Option String
  id : Option String
  host : Option String
  port : Option Int
deriving Repr, DecidableEq

/-- The fallback match of `Registry.unregister`:
`(host && inst.host === host) || (port && inst.port === port)`. -/
def matchesHostPort (host : Option String) (port : Option Int) (inst : Instance) : Bool :=
  (truthyS host && inst.host == host.getD "") || (truthyI port && inst.port == port.getD 0)

/-- `Registry.unregister`: require truthy `name`; remove by `id` when truthy,
otherwise remove every instance matching `host` or `port`; drop the service
entry when its map becomes empty. -/
def Registry.unregister (r : Registry) (a : UnregisterArgs) :
    Registry × Except String Bool :=
  if !(truthyS a.name) then (r, Except.error "name required")
  else
    let n := a.name.getD ""
    match getA r.services n with
    | none => (r, Except.ok false)
    | some m =>
      if truthyS a.id then
        let i := a.id.getD ""
        let removed := (getA m i).isSome
        let m' := delA m i
        let services' := if m'.isEmpty then delA r.services n else setA r.services n m'
        ({ services := services', ttl := r.ttl }, Except.ok removed)
      else
        let m' := m.filter (fun e => !(matchesHostPort a.host a.port e.2))
        let services' := if m'.isEmpty then delA r.services n else setA r.services n m'
        ({ services := services', ttl := r.ttl }, Except.ok true)

/-- The loop body of `Registry.resolve`:
`if (!chosen || inst.lastSeen > chosen.lastSeen) chosen = inst`. -/
def pickSeen : Option Instance → List Instance → Option Instance
  | chosen, [] => chosen
  | none, i :: rest => pickSeen (some i) rest
  | some c, i :: rest =>
    pickSeen (some (if c.lastSeen < i.lastSeen then i else c)) rest

/-- `Registry.resolve`: most recently seen instance of a service, or `null`. -/
def Registry.resolve (r : Registry) (name : String) : Option Instance :=
  match getA r.services name with
  | none => none
  | some m => if m.isEmpty then none else pickSeen none (m.map (·.2))

/-- The per-instance projection built by `Registry.list` (drops `name`). -/
structure InstanceView where
  id : String
  host : String
  port : Int
  pid : Option Int
  meta : List (String × String)
  lastSeen : Int
deriving Repr, DecidableEq

/-- The projection of one instance in the `Registry.list` snapshot. -/
def viewOf (i : Instance) : InstanceView :=
  { id := i.id, host := i.host, port := i.port, pid := i.pid,
    meta := i.meta, lastSeen := i.lastSeen }

/-- `Registry.list`: snapshot of every service's instances. -/
def Registry.list (r : Registry) : List (String × List InstanceView) :=
  r.services.map (fun p => (p.1, p.2.map (fun e => viewOf e.2)))

/-- The two nested loops of `Registry.cleanupExpired`: keep in every service
map the entries whose instance satisfies `q`, then drop the services whose
map became empty. -/
def cleanServices (s : List (String × InstMap)) (q : Instance → Bool) :
    List (String × InstMap) :=
  (s.map (fun p => (p.1, p.2.filter (fun e => q e.2)))).filter (fun p => !p.2.isEmpty)

/-- `Registry.cleanupExpired`: delete every instance with
`now - lastSeen > ttl`, then delete services left with an empty map. -/
def Registry.cleanupExpired (r : Registry) (now : Int) : Registry :=
  { services := cleanServices r.services (fun i => !(r.ttl < now - i.lastSeen)),
    ttl := r.ttl }

/-- The instances currently registered under a name (values of its map). -/
def Registry.instancesOf (r : Registry) (name : String) : List Instance :=
  match getA r.services name with
  | none => []
  | some m => m.map (·.2)

/-- The instance values stored under a name in a raw service list. -/
def valsA (s : List (String × InstMap)) (name : String) : List Instance :=
  ((getA s name).getD []).map (·.2)

/-- Lookup of a single instance by service name and instance id. -/
def Registry.getInst (r : Registry) (name id : String) : Option Instance :=
  match getA r.services name with
  | none => none
  | some m => getA m id

/-- One directory operation, for stating invariants over all of them. -/
inductive Op where
  | reg (a : RegisterArgs) (now : Int) (rand : Nat)
  | hb (name id : Option String) (now : Int)
  | unreg (a : UnregisterArgs)
  | clean (now : Int)

/-- The registry state after one operation (errors leave the state as is). -/
def applyOp (r : Registry) : Op → Registry
  | Op.reg a now rand => (r.register a now rand).1
  | Op.hb n i now => (r.heartbeat n i now).1
  | Op.unreg a => (r.unregister a).1
  | Op.clean now => r.cleanupExpired now

/-- The directory invariant: no service name maps to an empty instance set. -/
def WF (r : Registry) : Prop := ∀ p ∈ r.services, p.2 ≠ []

instance (r : Registry) : Decidable (WF r) := by
  unfold WF; infer_instance

/-- Outcome of the POST /heartbeat route. -/
inductive HbResponse where
  | ok (inst : Option Instance)
  | badRequest (error : String)
deriving Repr, DecidableEq

/-- The POST /heartbeat handler: 200 with the method's result, or 400 with
the thrown message and the registry untouched. -/
def postHeartbeat (r : Registry) (name id : Option String) (now : Int) :
    Registry × HbResponse :=
  match r.heartbeat name id now with
  | (r', Except.ok inst) => (r', HbResponse.ok inst)
  | (_, Except.error e) => (r, HbResponse.badRequest e)

/-- What the daemon finds at the rendezvous file when it starts:
the read may fail, the JSON parse may fail, the parsed value may be falsy,
or it is an object whose `pid` field may be absent. -/
inductive RendezvousContent where
  | absent
  | malformed
  | parsedFalsy
  | record (pid : Option Int)
deriving Repr, DecidableEq

/-- JavaScript truthiness of the parsed record's `pid` field. -/
def pidTruthy : Option Int → Bool
  | none => false
  | some p => p != 0

/-- `discoveryFileIsStale`, over the file content and a pid-liveness oracle
(`process.kill(pid, 0)` succeeding exactly on live pids): any read or parse
failure, falsy record, or missing/falsy/dead pid counts as stale. -/
def discoveryFileIsStale (c : RendezvousContent) (alive : Int → Bool) : Bool :=
  match c with
  | RendezvousContent.absent => true
  | RendezvousContent.malformed => true
  | RendezvousContent.parsedFalsy => true
  | RendezvousContent.record pid =>
    if pidTruthy pid then !(alive (pid.getD 0)) else true

/-- The `main` startup guard: the daemon aborts (exits before binding)
exactly when the discovery file is not stale. -/
def daemonAbortsAtStartup (c : RendezvousContent) (alive : Int → Bool) : Bool :=
  !(discoveryFileIsStale c alive)

/-- Boolean helper for witnesses: did an `Except` computation succeed. -/
def isOkE {ε α : Type} : Except ε α → Bool
  | Except.ok _ => true
  | Except.error _ => false

instance {ε α : Type} [DecidableEq ε] [DecidableEq α] : DecidableEq (Except ε α) := fun x y =>
  match x, y with
  | Except.ok a, Except.ok b =>
    if h : a = b then isTrue (by rw [h])
    else isFalse (by intro hc; cases hc; exact h rfl)
  | Except.ok _, Except.error _ => isFalse (by intro hc; cases hc)
  | Except.error _, Except.ok _ => isFalse (by intro hc; cases hc)
  | Except.error a, Except.error b =>
    if h : a = b then isTrue (by rw [h])
    else isFalse (by intro hc; cases hc; exact h rfl)

/-! ## Association-list lemmas -/

theorem getA_setA_self {α : Type} (m : List (String × α)) (k : String) (v : α) :
    getA (setA m k v) k = some v := by
  induction m with
  | nil => simp [getA, setA]
  | cons p rest ih =>
    obtain ⟨k', v'⟩ := p
    by_cases h : k' = k
    · simp [setA, h, getA]
    · simp [setA, h, getA, ih]

theorem getA_setA_ne {α : Type} (m : List (String × α)) (k k' : String) (v : α)
    (h : k' ≠ k) : getA (setA m k v) k' = getA m k' := by
  have hk : k ≠ k' := fun hc => h hc.symm
  induction m with
  | nil => simp [getA, setA, hk]
  | cons p rest ih =>
    obtain ⟨k0, v0⟩ := p
    by_cases h0 : k0 = k
    · subst h0
      simp [setA, getA, hk]
    · by_cases h1 : k0 = k'
      · simp [setA, h0, getA, h1, h]
      · simp [setA, h0, getA, h1, ih]

theorem mem_setA {α : Type} {m : List (String × α)} {k : String} {v : α}
    {p : String × α} (h : p ∈ setA m k v) : p = (k, v) ∨ p ∈ m := by
  induction m with
  | nil =>
    simp [setA] at h
    simp [h]
  | cons q rest ih =>
    obtain ⟨k', v'⟩ := q
    by_cases h0 : k' = k
    · simp [setA, h0] at h
      rcases h with h | h
      · exact Or.inl h
      · exact Or.inr (List.mem_cons_of_mem _ h)
    · simp [setA, h0] at h
      rcases h with h | h
      · exact Or.inr (by simp [h])
      · rcases ih h with h1 | h1
        · exact Or.inl h1
        · exact Or.inr (List.mem_cons_of_mem _ h1)

theorem setA_ne_nil {α : Type} (m : List (String × α)) (k : String) (v : α) :
    setA m k v ≠ [] := by
  cases m with
  | nil => simp [setA]
  | cons p rest =>
    obtain ⟨k', v'⟩ := p
    by_cases h : k' = k <;> simp [setA, h]

theorem mem_delA {α : Type} {m : List (String × α)} {k : String}
    {p : String × α} (h : p ∈ delA m k) : p ∈ m := by
  induction m with
  | nil => simp [delA] at h
  | cons q rest ih =>
    obtain ⟨k', v'⟩ := q
    by_cases h0 : k' = k
    · simp [delA, h0] at h
      exact List.mem_cons_of_mem _ h
    · simp [delA, h0] at h
      rcases h with h | h
      · simp [h]
      · exact List.mem_cons_of_mem _ (ih h)

theorem getA_mem {α : Type} {m : List (String × α)} {k : String} {v : α}
    (h : getA m k = some v) : (k, v) ∈ m := by
  induction m with
  | nil => simp [getA] at h
  | cons q rest ih =>
    obtain ⟨k', v'⟩ := q
    by_cases h0 : k' = k
    · subst h0
      simp [getA] at h
      simp [h]
    · simp [getA, h0] at h
      exact List.mem_cons_of_mem _ (ih h)

theorem getA_none_of_not_mem_keys {α : Type} {m : List (String × α)} {k : String}
    (h : k ∉ m.map Prod.fst) : getA m k = none := by
  induction m with
  | nil => simp [getA]
  | cons q rest ih =>
    obtain ⟨k', v'⟩ := q
    simp only [List.map_cons, List.mem_cons, not_or] at h
    have hk : k' ≠ k := fun hc => h.1 hc.symm
    simp [getA, hk, ih h.2]

theorem getA_some_of_mem_keys {α : Type} {m : List (String × α)} {k : String}
    (h : k ∈ m.map Prod.fst) : ∃ v, getA m k = some v := by
  induction m with
  | nil => simp at h
  | cons q rest ih =>
    obtain ⟨k', v'⟩ := q
    by_cases h0 : k' = k
    · exact ⟨v', by simp [getA, h0]⟩
    · simp only [List.map_cons, List.mem_cons] at h
      rcases h with h | h
      · exact absurd h.symm h0
      · rcases ih h with ⟨v, hv⟩
        exact ⟨v, by simp [getA, h0, hv]⟩

theorem getA_delA_self {α : Type} {m : List (String × α)} {k : String}
    (h : (m.map Prod.fst).Nodup) : getA (delA m k) k = none := by
  induction m with
  | nil => simp [delA, getA]
  | cons q rest ih =>
    obtain ⟨k', v'⟩ := q
    simp at h
    by_cases h0 : k' = k
    · subst h0
      simp [delA]
      exact getA_none_of_not_mem_keys (by simpa using h.1)
    · simp [delA, h0, getA, ih h.2]

theorem map_snd_filter (m : InstMap) (q : Instance → Bool) :
    (m.filter (fun e => q e.2)).map (·.2) = (m.map (·.2)).filter q := by
  induction m with
  | nil => simp
  | cons e rest ih =>
    by_cases h : q e.2 <;> simp [List.filter_cons, h, ih]

/-! ## Resolution lemmas -/

theorem pickSeen_isSome (l : List Instance) (c : Instance) :
    ∃ d, pickSeen (some c) l = some d := by
  induction l generalizing c with
  | nil => exact ⟨c, rfl⟩
  | cons i rest ih => exact ih _

theorem pickSeen_mem {l : List Instance} {c d : Instance}
    (h : pickSeen (some c) l = some d) : d = c ∨ d ∈ l := by
  induction l generalizing c with
  | nil =>
    simp [pickSeen] at h
    exact Or.inl h.symm
  | cons i rest ih =>
    simp only [pickSeen] at h
    rcases ih h with h1 | h1
    · by_cases hlt : c.lastSeen < i.lastSeen
      · simp [hlt] at h1
        exact Or.inr (by simp [h1])
      · simp [hlt] at h1
        exact Or.inl h1
    · exact Or.inr (List.mem_cons_of_mem _ h1)

theorem pickSeen_ub {l : List Instance} {c d : Instance}
    (h : pickSeen (some c) l = some d) :
    c.lastSeen ≤ d.lastSeen ∧ ∀ j ∈ l, j.lastSeen ≤ d.lastSeen := by
  induction l generalizing c with
  | nil =>
    simp [pickSeen] at h
    subst h
    exact ⟨le_refl _, by simp⟩
  | cons i rest ih =>
    simp only [pickSeen] at h
    rcases ih h with ⟨h1, h2⟩
    by_cases hlt : c.lastSeen < i.lastSeen
    · simp [hlt] at h1
      refine ⟨le_of_lt (lt_of_lt_of_le hlt h1), ?_⟩
      intro j hj
      rcases List.mem_cons.mp hj with hj | hj
      · exact hj ▸ h1
      · exact h2 j hj
    · simp [hlt] at h1
      refine ⟨h1, ?_⟩
      intro j hj
      rcases List.mem_cons.mp hj with hj | hj
      · exact hj ▸ le_trans (le_of_not_lt hlt) h1
      · exact h2 j hj

theorem pickSeen_strict {l : List Instance} {c i : Instance}
    (hmem : i = c ∨ i ∈ l)
    (hc : c ≠ i → c.lastSeen < i.lastSeen)
    (hl : ∀ j ∈ l, j ≠ i → j.lastSeen < i.lastSeen) :
    pickSeen (some c) l = some i := by
  induction l generalizing c with
  | nil =>
    rcases hmem with h | h
    · simp [pickSeen, h.symm]
    · simp at h
  | cons a rest ih =>
    simp only [pickSeen]
    have htail : ∀ j ∈ rest, j ≠ i → j.lastSeen < i.lastSeen :=
      fun j hj hji => hl j (List.mem_cons_of_mem _ hj) hji
    by_cases hac : a = i
    · subst hac
      have hsel : (if c.lastSeen < a.lastSeen then a else c) = a := by
        by_cases hci : c = a
        · simp [hci]
        · simp [hc hci]
      rw [hsel]
      exact ih (Or.inl rfl) (fun h => absurd rfl h) htail
    · have hai : a.lastSeen < i.lastSeen :=
        hl a (List.mem_cons_self _ _) hac
      by_cases hlt : c.lastSeen < a.lastSeen
      · rw [if_pos hlt]
      -- the chosen head is `a`; `i` cannot be `c` (its timestamp would be
      -- below `a`'s yet above it), so `i` sits in the tail
        have hmem' : i = a ∨ i ∈ rest := by
          rcases hmem with h | h
          · subst h
            exact absurd (lt_trans hlt hai) (lt_irrefl _)
          · rcases List.mem_cons.mp h with h | h
            · exact absurd h.symm hac
            · exact Or.inr h
        exact ih hmem' (fun _ => hai) htail
      · rw [if_neg hlt]
        have hmem' : i = c ∨ i ∈ rest := by
          rcases hmem with h | h
          · exact Or.inl h
          · rcases List.mem_cons.mp h with h | h
            · exact absurd h.symm hac
            · exact Or.inr h
        exact ih hmem' hc htail

theorem resolve_none_iff (r : Registry) (name : String) :
    r.resolve name = none ↔ r.instancesOf name = [] := by
  unfold Registry.resolve Registry.instancesOf
  cases hg : getA r.services name with
  | none => simp
  | some m =>
    cases m with
    | nil => simp
    | cons e rest =>
      simp only [List.isEmpty_cons, List.map_cons]
      rcases pickSeen_isSome (rest.map (·.2)) e.2 with ⟨d, hd⟩
      simp [pickSeen, hd]

theorem resolve_spec {r : Registry} {name : String} {i : Instance}
    (h : r.resolve name = some i) :
    i ∈ r.instancesOf name ∧ ∀ j ∈ r.instancesOf name, j.lastSeen ≤ i.lastSeen := by
  unfold Registry.resolve at h
  cases hg : getA r.services name with
  | none => simp [hg] at h
  | some m =>
    rw [hg] at h
    have hio : r.instancesOf name = m.map (·.2) := by
      unfold Registry.instancesOf
      rw [hg]
    cases m with
    | nil => simp at h
    | cons e rest =>
      replace h : pickSeen (some e.2) (rest.map (·.2)) = some i := h
      rw [hio, List.map_cons]
      refine ⟨?_, ?_⟩
      · rcases pickSeen_mem h with h1 | h1
        · exact h1 ▸ List.mem_cons_self _ _
        · exact List.mem_cons_of_mem _ h1
      · intro j hj
        rcases List.mem_cons.mp hj with hj | hj
        · exact hj ▸ (pickSeen_ub h).1
        · exact (pickSeen_ub h).2 j hj

theorem resolve_of_strict_max {r : Registry} {name : String} {i : Instance}
    (hmem : i ∈ r.instancesOf name)
    (hstrict : ∀ j ∈ r.instancesOf name, j ≠ i → j.lastSeen < i.lastSeen) :
    r.resolve name = some i := by
  unfold Registry.resolve
  cases hg : getA r.services name with
  | none =>
    have hio : r.instancesOf name = [] := by
      unfold Registry.instancesOf
      rw [hg]
    rw [hio] at hmem
    simp at hmem
  | some m =>
    have hio : r.instancesOf name = m.map (·.2) := by
      unfold Registry.instancesOf
      rw [hg]
    rw [hio] at hmem hstrict
    cases m with
    | nil => simp at hmem
    | cons e rest =>
      rw [List.map_cons] at hmem hstrict
      show pickSeen (some e.2) (rest.map (·.2)) = some i
      apply pickSeen_strict
      · rcases List.mem_cons.mp hmem with h | h
        · exact Or.inl h
        · exact Or.inr h
      · intro hne
        exact hstrict e.2 (List.mem_cons_self _ _) hne
      · intro j hj hji
        exact hstrict j (List.mem_cons_of_mem _ hj) hji

/-! ## Characterization lemmas for the operations -/

theorem instancesOf_eq_valsA (r : Registry) (name : String) :
    r.instancesOf name = valsA r.services name := by
  unfold Registry.instancesOf valsA
  cases getA r.services name <;> simp

theorem register_ok (r : Registry) (a : RegisterArgs) (now : Int) (rand : Nat)
    (hn : truthyS a.name = true) (hp : truthyI a.port = true) :
    r.register a now rand
      = (Registry.mk
          (setA r.services (a.name.getD "")
            (setA (prevMap r a) (regId a rand) (regInstance a now rand)))
          r.ttl,
        Except.ok (regInstance a now rand)) := by
  unfold Registry.register
  rw [hn, hp]
  simp only [Bool.not_true, Bool.false_eq_true, if_false]
  unfold prevMap regInstance regId regHost
  rfl

theorem instancesOf_prevMap (r : Registry) (a : RegisterArgs) :
    r.instancesOf (a.name.getD "") = (prevMap r a).map (·.2) := by
  unfold Registry.instancesOf prevMap
  cases getA r.services (a.name.getD "") <;> simp

theorem keys_cleanServices_sub {s : List (String × InstMap)} {q : Instance → Bool}
    {k : String} (h : k ∈ (cleanServices s q).map Prod.fst) :
    k ∈ s.map Prod.fst := by
  simp only [cleanServices, List.mem_map] at h ⊢
  rcases h with ⟨p, hp, hk⟩
  rcases List.mem_filter.mp hp with ⟨hp1, _⟩
  rcases List.mem_map.mp hp1 with ⟨p0, hp0, he⟩
  refine ⟨p0, hp0, ?_⟩
  rw [← he] at hk
  exact hk

theorem valsA_cleanServices (s : List (String × InstMap)) (q : Instance → Bool)
    (name : String) (h : (s.map Prod.fst).Nodup) :
    valsA (cleanServices s q) name = (valsA s name).filter q := by
  induction s with
  | nil => simp [cleanServices, valsA, getA]
  | cons p rest ih =>
    obtain ⟨k, m⟩ := p
    rw [List.map_cons, List.nodup_cons] at h
    by_cases hk : k = name
    · subst hk
      by_cases he : (m.filter (fun e => q e.2)).isEmpty
      · have h2 : m.filter (fun e => q e.2) = [] := by
          rwa [List.isEmpty_iff] at he
        have h1 : getA (cleanServices rest q) k = none :=
          getA_none_of_not_mem_keys (fun hmem => h.1 (keys_cleanServices_sub hmem))
        have hL : cleanServices ((k, m) :: rest) q = cleanServices rest q := by
          simp [cleanServices, List.filter_cons, he]
        rw [hL]
        unfold valsA
        rw [h1, getA]
        simp [← map_snd_filter, h2]
      · have hL : cleanServices ((k, m) :: rest) q
            = (k, m.filter (fun e => q e.2)) :: cleanServices rest q := by
          simp [cleanServices, List.filter_cons, he]
        rw [hL]
        unfold valsA
        rw [getA, getA]
        simp [map_snd_filter]
    · have hL : valsA (cleanServices ((k, m) :: rest) q) name
          = valsA (cleanServices rest q) name := by
        by_cases he : (m.filter (fun e => q e.2)).isEmpty
        · have hcs : cleanServices ((k, m) :: rest) q = cleanServices rest q := by
            simp [cleanServices, List.filter_cons, he]
          rw [hcs]
        · have hcs : cleanServices ((k, m) :: rest) q
              = (k, m.filter (fun e => q e.2)) :: cleanServices rest q := by
            simp [cleanServices, List.filter_cons, he]
          rw [hcs]
          unfold valsA
          rw [getA]
          simp [hk]
      rw [hL, ih h.2]
      unfold valsA
      rw [getA]
      simp [hk]

/-! ## Claim theorems -/

/-- Claim C2: `resolve(name)` returns `null` exactly when the service has no
registered instances; any instance it returns is one of the service's current
instances with maximal `lastSeen`; and when one instance has strictly greatest
`lastSeen`, that instance is the one returned. -/
theorem C2_resolve_most_recent (r : Registry) (name : String) :
    (r.resolve name = none ↔ r.instancesOf name = [])
    ∧ (∀ i, r.resolve name = some i →
        i ∈ r.instancesOf name ∧ ∀ j ∈ r.instancesOf name, j.lastSeen ≤ i.lastSeen)
    ∧ (∀ i, i ∈ r.instancesOf name →
        (∀ j ∈ r.instancesOf name, j ≠ i → j.lastSeen < i.lastSeen) →
        r.resolve name = some i) :=
  ⟨resolve_none_iff r name, fun _ h => resolve_spec h,
    fun _ hm hs => resolve_of_strict_max hm hs⟩

/-- Witness for C2: on a service with instances seen at 5 and 9, `resolve`
returns the one seen at 9. -/
theorem C2_resolve_most_recent_witness :
    (Registry.mk
        [("a", [("x", Instance.mk "x" "a" "h" 1 none [] 5),
                ("y", Instance.mk "y" "a" "h" 2 none [] 9)])] 15000).resolve "a"
      = some (Instance.mk "y" "a" "h" 2 none [] 9) :=
  (C2_resolve_most_recent _ "a").2.2 _ (by decide) (by decide)

/-- Claim C1 (amended): register succeeds exactly when `name` is a non-empty
string and `port` a non-zero number (negative ports are accepted); on a
validation failure the registry state is unchanged. -/
theorem C1_register_validation (r : Registry) (a : RegisterArgs) (now : Int) (rand : Nat) :
    (isOkE (r.register a now rand).2 = (truthyS a.name && truthyI a.port))
    ∧ ((truthyS a.name && truthyI a.port) = false → (r.register a now rand).1 = r) := by
  unfold Registry.register
  by_cases hn : truthyS a.name
  · by_cases hp : truthyI a.port
    · simp [hn, hp, isOkE]
    · simp [hn, hp, isOkE]
  · simp [hn, isOkE]

/-- Counterexample to C1 as stated: registering with the negative port `-1`
succeeds, though the claim requires every non-positive port to fail. -/
theorem C1_counterexample :
    isOkE ((Registry.mk [] 15000).register
        (RegisterArgs.mk (some "a") none (some (-1)) none none []) 0 0).2 = true := by
  decide

/-- Witness for C1 (amended): port 0 is rejected and the state is unchanged. -/
theorem C1_register_validation_witness :
    isOkE ((Registry.mk [] 15000).register
        (RegisterArgs.mk (some "a") none (some 0) none none []) 3 4).2 = false
    ∧ ((Registry.mk [] 15000).register
        (RegisterArgs.mk (some "a") none (some 0) none none []) 3 4).1
      = Registry.mk [] 15000 := by
  have h := C1_register_validation (Registry.mk [] 15000)
    (RegisterArgs.mk (some "a") none (some 0) none none []) 3 4
  refine ⟨?_, h.2 (by decide)⟩
  rw [h.1]
  decide

/-- Claim C8: the daemon aborts at startup exactly when the rendezvous record
is present, parsable, carries a (truthy) pid, and that pid is live; an absent,
malformed, falsy, pid-less or dead-pid record is treated as stale and the
daemon proceeds to start. -/
theorem C8_singleton_guard (c : RendezvousContent) (alive : Int → Bool) :
    daemonAbortsAtStartup c alive = true
      ↔ ∃ p, c = RendezvousContent.record (some p) ∧ p ≠ 0 ∧ alive p = true := by
  cases c with
  | absent => simp [daemonAbortsAtStartup, discoveryFileIsStale]
  | malformed => simp [daemonAbortsAtStartup, discoveryFileIsStale]
  | parsedFalsy => simp [daemonAbortsAtStartup, discoveryFileIsStale]
  | record pid =>
    cases pid with
    | none => simp [daemonAbortsAtStartup, discoveryFileIsStale, pidTruthy]
    | some p =>
      by_cases hp : p = 0
      · simp [daemonAbortsAtStartup, discoveryFileIsStale, pidTruthy, hp]
      · simp [daemonAbortsAtStartup, discoveryFileIsStale, pidTruthy, hp]

theorem instancesOf_mk_setA (s : List (String × InstMap)) (t : Int) (nm : String)
    (M : InstMap) :
    (Registry.mk (setA s nm M) t).instancesOf nm = M.map (·.2) := by
  unfold Registry.instancesOf
  rw [show (Registry.mk (setA s nm M) t).services = setA s nm M from rfl,
    getA_setA_self]

theorem WF_dropOrSet (r : Registry) (n : String) (m' : InstMap) (h : WF r) :
    WF (Registry.mk
      (if m'.isEmpty then delA r.services n else setA r.services n m') r.ttl) := by
  by_cases he : m'.isEmpty = true
  · rw [if_pos he]
    intro p hp
    exact h p (mem_delA hp)
  · rw [if_neg he]
    intro p hp
    rcases mem_setA hp with h1 | h1
    · rw [h1]
      intro hnil
      have hm : m' = [] := hnil
      rw [hm] at he
      exact he rfl
    · exact h p h1

theorem WF_register (r : Registry) (a : RegisterArgs) (now : Int) (rand : Nat)
    (h : WF r) : WF (r.register a now rand).1 := by
  by_cases hn : truthyS a.name = true
  · by_cases hp : truthyI a.port = true
    · rw [register_ok r a now rand hn hp]
      intro p hp'
      rcases mem_setA hp' with h1 | h1
      · rw [h1]
        exact setA_ne_nil _ _ _
      · exact h p h1
    · rw [Bool.not_eq_true] at hp
      unfold Registry.register
      rw [hn, hp]
      simpa using h
  · rw [Bool.not_eq_true] at hn
    unfold Registry.register
    rw [hn]
    simpa using h

theorem WF_heartbeat (r : Registry) (name id : Option String) (now : Int)
    (h : WF r) : WF (r.heartbeat name id now).1 := by
  unfold Registry.heartbeat
  by_cases hg : (!(truthyS name && truthyS id)) = true
  · rw [if_pos hg]
    exact h
  · rw [if_neg hg]
    dsimp only
    cases hsrv : getA r.services (name.getD "") with
    | none => exact h
    | some m =>
      dsimp only
      cases hinst : getA m (id.getD "") with
      | none => exact h
      | some inst =>
        intro p hp
        rcases mem_setA hp with h1 | h1
        · rw [h1]
          exact setA_ne_nil _ _ _
        · exact h p h1

theorem WF_unregister (r : Registry) (a : UnregisterArgs) (h : WF r) :
    WF (r.unregister a).1 := by
  unfold Registry.unregister
  by_cases hg : (!(truthyS a.name)) = true
  · rw [if_pos hg]
    exact h
  · rw [if_neg hg]
    dsimp only
    cases hsrv : getA r.services (a.name.getD "") with
    | none => exact h
    | some m =>
      dsimp only
      by_cases hid : truthyS a.id = true
      · rw [if_pos hid]
        exact WF_dropOrSet r (a.name.getD "") (delA m (a.id.getD "")) h
      · rw [if_neg hid]
        exact WF_dropOrSet r (a.name.getD "")
          (m.filter (fun e => !(matchesHostPort a.host a.port e.2))) h

theorem WF_cleanupExpired (r : Registry) (now : Int) : WF (r.cleanupExpired now) := by
  intro p hp
  have hp' : p ∈ cleanServices r.services (fun i => !(r.ttl < now - i.lastSeen)) := hp
  rcases List.mem_filter.mp hp' with ⟨_, hP⟩
  intro hnil
  rw [hnil] at hP
  simp at hP

theorem keys_list_eq (r : Registry) :
    (Registry.list r).map Prod.fst = r.services.map Prod.fst := by
  unfold Registry.list
  rw [List.map_map]
  rfl

/-- Claim C3 (amended): if a register call succeeds at time `now` and every
instance already registered under that name has `lastSeen` strictly below
`now`, then `resolve` immediately afterwards returns exactly the instance
just registered (so in particular one with its `id`); on a `lastSeen` tie
the earlier instance may win instead. -/
theorem C3_register_then_resolve (r : Registry) (a : RegisterArgs) (now : Int)
    (rand : Nat) (inst : Instance)
    (hok : (r.register a now rand).2 = Except.ok inst)
    (hfresh : ∀ j ∈ r.instancesOf (a.name.getD ""), j.lastSeen < now) :
    (r.register a now rand).1.resolve (a.name.getD "") = some inst := by
  by_cases hn : truthyS a.name = true
  · by_cases hp : truthyI a.port = true
    · have hreg := register_ok r a now rand hn hp
      rw [hreg] at hok ⊢
      simp only [Except.ok.injEq] at hok
      subst hok
      apply resolve_of_strict_max
      · rw [show (Registry.mk
            (setA r.services (a.name.getD "")
              (setA (prevMap r a) (regId a rand) (regInstance a now rand)))
            r.ttl,
            Except.ok (regInstance a now rand)).1
          = Registry.mk
            (setA r.services (a.name.getD "")
              (setA (prevMap r a) (regId a rand) (regInstance a now rand)))
            r.ttl from rfl,
          instancesOf_mk_setA]
        exact List.mem_map_of_mem _ (getA_mem (getA_setA_self _ _ _))
      · intro j hj hne
        rw [show (Registry.mk
            (setA r.services (a.name.getD "")
              (setA (prevMap r a) (regId a rand) (regInstance a now rand)))
            r.ttl,
            Except.ok (regInstance a now rand)).1
          = Registry.mk
            (setA r.services (a.name.getD "")
              (setA (prevMap r a) (regId a rand) (regInstance a now rand)))
            r.ttl from rfl,
          instancesOf_mk_setA] at hj
        rcases List.mem_map.mp hj with ⟨e, he, hej⟩
        rcases mem_setA he with h1 | h1
        · exact absurd (by rw [← hej, h1]) hne
        · have hjprev : j ∈ (prevMap r a).map (·.2) := by
            rw [← hej]
            exact List.mem_map_of_mem _ h1
          rw [← instancesOf_prevMap] at hjprev
          exact hfresh j hjprev
    · rw [Bool.not_eq_true] at hp
      unfold Registry.register at hok
      rw [hn, hp] at hok
      simp at hok
  · rw [Bool.not_eq_true] at hn
    unfold Registry.register at hok
    rw [hn] at hok
    simp at hok

/-- Counterexample to C3 as stated: with a prior instance `x` whose `lastSeen`
equals the registration time, registering a new instance `b` of the same
service and resolving immediately returns `x`, not `b`. -/
theorem C3_counterexample :
    ((Registry.mk [("a", [("x", Instance.mk "x" "a" "h" 1 none [] 5)])] 15000).register
        (RegisterArgs.mk (some "a") (some "h") (some 2) none (some "b") []) 5 0).2
      = Except.ok (Instance.mk "b" "a" "h" 2 none [] 5)
    ∧ ((Registry.mk [("a", [("x", Instance.mk "x" "a" "h" 1 none [] 5)])] 15000).register
        (RegisterArgs.mk (some "a") (some "h") (some 2) none (some "b") []) 5 0).1.resolve "a"
      = some (Instance.mk "x" "a" "h" 1 none [] 5) := by
  constructor
  · decide
  · decide

/-- Witness for C3 (amended): prior instance seen at 3, registration at 5,
resolve returns the freshly registered instance. -/
theorem C3_register_then_resolve_witness :
    ((Registry.mk [("a", [("x", Instance.mk "x" "a" "h" 1 none [] 3)])] 15000).register
        (RegisterArgs.mk (some "a") (some "h") (some 2) none (some "b") []) 5 0).1.resolve "a"
      = some (Instance.mk "b" "a" "h" 2 none [] 5) :=
  C3_register_then_resolve
    (Registry.mk [("a", [("x", Instance.mk "x" "a" "h" 1 none [] 3)])] 15000)
    (RegisterArgs.mk (some "a") (some "h") (some 2) none (some "b") []) 5 0
    (Instance.mk "b" "a" "h" 2 none [] 5) (by decide) (by decide)

/-- Claim C4: `cleanupExpired` at time `now` evicts exactly the instances with
`now - lastSeen > ttl`; the boundary `now - lastSeen = ttl` is retained. -/
theorem C4_cleanup_boundary (r : Registry) (now : Int) (name : String)
    (hkeys : (r.services.map Prod.fst).Nodup) :
    (r.cleanupExpired now).instancesOf name
      = (r.instancesOf name).filter (fun i => !(r.ttl < now - i.lastSeen))
    ∧ ∀ i, i ∈ (r.cleanupExpired now).instancesOf name
        ↔ (i ∈ r.instancesOf name ∧ now - i.lastSeen ≤ r.ttl) := by
  have h1 : (r.cleanupExpired now).instancesOf name
      = (r.instancesOf name).filter (fun i => !(r.ttl < now - i.lastSeen)) := by
    rw [instancesOf_eq_valsA, instancesOf_eq_valsA]
    exact valsA_cleanServices r.services (fun i => !(r.ttl < now - i.lastSeen)) name hkeys
  refine ⟨h1, fun i => ?_⟩
  rw [h1, List.mem_filter]
  simp [not_lt]

/-- Witness for C4: with `ttl = 10` at `now = 20`, the instance seen at 10
(gap exactly `ttl`) survives and the instance seen at 9 (gap 11) is evicted. -/
theorem C4_cleanup_boundary_witness :
    ((Registry.mk [("a", [("x", Instance.mk "x" "a" "h" 1 none [] 10),
        ("y", Instance.mk "y" "a" "h" 2 none [] 9)])] 10).cleanupExpired 20).instancesOf "a"
      = [Instance.mk "x" "a" "h" 1 none [] 10] := by
  have h := C4_cleanup_boundary
    (Registry.mk [("a", [("x", Instance.mk "x" "a" "h" 1 none [] 10),
      ("y", Instance.mk "y" "a" "h" 2 none [] 9)])] 10) 20 "a" (by decide)
  rw [h.1]
  decide

/-- Claim C5: every operation preserves the invariant that no service name
maps to an empty instance set, and on an invariant-satisfying state a service
with no instances does not appear in the `list()` snapshot. -/
theorem C5_no_empty_service (r : Registry) (op : Op) (name : String) :
    (WF r → WF (applyOp r op))
    ∧ (WF r → r.instancesOf name = [] → name ∉ (Registry.list r).map Prod.fst) := by
  constructor
  · intro h
    cases op with
    | reg a now rand => exact WF_register r a now rand h
    | hb n i now => exact WF_heartbeat r n i now h
    | unreg a => exact WF_unregister r a h
    | clean now => exact WF_cleanupExpired r now
  · intro hWF hio hmem
    rw [keys_list_eq] at hmem
    rcases getA_some_of_mem_keys hmem with ⟨m, hm⟩
    have hmne : m ≠ [] := hWF (name, m) (getA_mem hm)
    unfold Registry.instancesOf at hio
    rw [hm] at hio
    exact hmne (List.map_eq_nil_iff.mp hio)

/-- Witness for C5: registering into the empty directory yields an invariant
state, and a name with no instances is absent from the snapshot. -/
theorem C5_no_empty_service_witness :
    WF (applyOp (Registry.mk [] 15000)
      (Op.reg (RegisterArgs.mk (some "a") none (some 7) none (some "x") []) 1 0))
    ∧ "b" ∉ (Registry.list (Registry.mk [] 15000)).map Prod.fst :=
  ⟨(C5_no_empty_service (Registry.mk [] 15000)
      (Op.reg (RegisterArgs.mk (some "a") none (some 7) none (some "x") []) 1 0) "b").1
      (by decide),
    (C5_no_empty_service (Registry.mk [] 15000)
      (Op.reg (RegisterArgs.mk (some "a") none (some 7) none (some "x") []) 1 0) "b").2
      (by decide) (by decide)⟩

theorem getInst_mk_setA (s : List (String × InstMap)) (t : Int) (n : String)
    (M : InstMap) (i : String) :
    (Registry.mk (setA s n M) t).getInst n i = getA M i := by
  unfold Registry.getInst
  rw [show (Registry.mk (setA s n M) t).services = setA s n M from rfl,
    getA_setA_self]

theorem heartbeat_noservice (r : Registry) (n i : String) (now : Int)
    (hn : truthyS (some n) = true) (hi : truthyS (some i) = true)
    (hsrv : getA r.services n = none) :
    r.heartbeat (some n) (some i) now = (r, Except.ok none) := by
  unfold Registry.heartbeat
  rw [hn, hi]
  simp only [Bool.and_self, Bool.not_true, Bool.false_eq_true, if_false, Option.getD]
  rw [hsrv]

theorem heartbeat_noinst (r : Registry) (n i : String) (now : Int)
    (hn : truthyS (some n) = true) (hi : truthyS (some i) = true) (m : InstMap)
    (hsrv : getA r.services n = some m) (hinst : getA m i = none) :
    r.heartbeat (some n) (some i) now = (r, Except.ok none) := by
  unfold Registry.heartbeat
  rw [hn, hi]
  simp only [Bool.and_self, Bool.not_true, Bool.false_eq_true, if_false, Option.getD]
  rw [hsrv]
  dsimp only
  rw [hinst]

theorem heartbeat_found (r : Registry) (n i : String) (now : Int)
    (hn : truthyS (some n) = true) (hi : truthyS (some i) = true)
    (m : InstMap) (old : Instance)
    (hsrv : getA r.services n = some m) (hinst : getA m i = some old) :
    r.heartbeat (some n) (some i) now
      = (Registry.mk (setA r.services n (setA m i { old with lastSeen := now })) r.ttl,
         Except.ok (some { old with lastSeen := now })) := by
  unfold Registry.heartbeat
  rw [hn, hi]
  simp only [Bool.and_self, Bool.not_true, Bool.false_eq_true, if_false, Option.getD]
  rw [hsrv]
  dsimp only
  rw [hinst]

/-- Claim C6: for a heartbeat with non-empty `name` and `id`, an unknown
target yields result `null` with the state untouched, and a known target gets
exactly its `lastSeen` replaced by `now` — `id`, `host`, `port`, `pid` and
`meta` are kept, every other instance of the service is untouched, and every
other service is untouched. -/
theorem C6_heartbeat_frame (r : Registry) (name id : Option String) (now : Int)
    (n i : String) (hname : name = some n) (hid : id = some i)
    (hn : n ≠ "") (hi : i ≠ "") :
    (r.getInst n i = none → r.heartbeat name id now = (r, Except.ok none))
    ∧ (∀ old, r.getInst n i = some old →
        (r.heartbeat name id now).2 = Except.ok (some { old with lastSeen := now })
        ∧ (r.heartbeat name id now).1.getInst n i
            = some { old with lastSeen := now }
        ∧ (∀ i', i' ≠ i →
            (r.heartbeat name id now).1.getInst n i' = r.getInst n i')
        ∧ (∀ n', n' ≠ n →
            getA (r.heartbeat name id now).1.services n' = getA r.services n')) := by
  subst hname hid
  have hnt : truthyS (some n) = true := by simp [truthyS, hn]
  have hit : truthyS (some i) = true := by simp [truthyS, hi]
  constructor
  · intro hnone
    cases hsrv : getA r.services n with
    | none => exact heartbeat_noservice r n i now hnt hit hsrv
    | some m =>
      unfold Registry.getInst at hnone
      rw [hsrv] at hnone
      exact heartbeat_noinst r n i now hnt hit m hsrv hnone
  · intro old hold
    cases hsrv : getA r.services n with
    | none =>
      unfold Registry.getInst at hold
      rw [hsrv] at hold
      exact absurd hold (by simp)
    | some m =>
      unfold Registry.getInst at hold
      rw [hsrv] at hold
      rw [heartbeat_found r n i now hnt hit m old hsrv hold]
      refine ⟨rfl, ?_, ?_, ?_⟩
      · dsimp only
        rw [getInst_mk_setA, getA_setA_self]
      · intro i' hi'
        dsimp only
        rw [getInst_mk_setA, getA_setA_ne _ _ _ _ hi']
        unfold Registry.getInst
        rw [hsrv]
      · intro n' hn'
        dsimp only
        exact getA_setA_ne _ _ _ _ hn'

/-- Witness for C6: a heartbeat at 9 for the known instance `x` returns the
record with `lastSeen = 9` and leaves the sibling instance `y` untouched. -/
theorem C6_heartbeat_frame_witness :
    ((Registry.mk [("a", [("x", Instance.mk "x" "a" "h" 1 none [] 5),
        ("y", Instance.mk "y" "a" "h" 2 none [] 6)])] 15000).heartbeat
        (some "a") (some "x") 9).2
      = Except.ok (some (Instance.mk "x" "a" "h" 1 none [] 9))
    ∧ ((Registry.mk [("a", [("x", Instance.mk "x" "a" "h" 1 none [] 5),
        ("y", Instance.mk "y" "a" "h" 2 none [] 6)])] 15000).heartbeat
        (some "a") (some "x") 9).1.getInst "a" "y"
      = some (Instance.mk "y" "a" "h" 2 none [] 6) := by
  have h := (C6_heartbeat_frame
    (Registry.mk [("a", [("x", Instance.mk "x" "a" "h" 1 none [] 5),
      ("y", Instance.mk "y" "a" "h" 2 none [] 6)])] 15000)
    (some "a") (some "x") 9 "a" "x" rfl rfl (by decide) (by decide)).2
    (Instance.mk "x" "a" "h" 1 none [] 5) (by decide)
  refine ⟨?_, ?_⟩
  · rw [h.1]
  · rw [h.2.2.1 "y" (by decide)]
    decide

theorem unregister_fallback (r : Registry) (nm : String) (host : Option String)
    (port : Option Int) (hnm : nm ≠ "") (m : InstMap)
    (hm : getA r.services nm = some m) :
    r.unregister (UnregisterArgs.mk (some nm) none host port)
      = (Registry.mk
          (if (m.filter (fun e => !(matchesHostPort host port e.2))).isEmpty
            then delA r.services nm
            else setA r.services nm
              (m.filter (fun e => !(matchesHostPort host port e.2))))
          r.ttl,
        Except.ok true) := by
  have hg : ¬((!(truthyS (some nm))) = true) := by simp [truthyS, hnm]
  unfold Registry.unregister
  rw [if_neg hg]
  dsimp only [Option.getD]
  rw [hm]
  dsimp only [truthyS]
  simp only [Bool.false_eq_true, if_false]

/-- Claim C7: an unregister call without `id` on an existing service removes
exactly the instances whose `host` matches a supplied truthy `host` or whose
`port` matches a supplied truthy `port`, retains all others, and reports
success. -/
theorem C7_unregister_by_address (r : Registry) (nm : String) (host : Option String)
    (port : Option Int) (hnm : nm ≠ "")
    (hkeys : (r.services.map Prod.fst).Nodup) (m : InstMap)
    (hm : getA r.services nm = some m) :
    (r.unregister (UnregisterArgs.mk (some nm) none host port)).2 = Except.ok true
    ∧ (r.unregister (UnregisterArgs.mk (some nm) none host port)).1.instancesOf nm
      = (r.instancesOf nm).filter (fun i => !(matchesHostPort host port i)) := by
  have hio : r.instancesOf nm = m.map (·.2) := by
    unfold Registry.instancesOf
    rw [hm]
  rw [unregister_fallback r nm host port hnm m hm, hio]
  refine ⟨rfl, ?_⟩
  dsimp only
  by_cases he : (m.filter (fun e => !(matchesHostPort host port e.2))).isEmpty = true
  · have h2 : m.filter (fun e => !(matchesHostPort host port e.2)) = [] := by
      rwa [List.isEmpty_iff] at he
    rw [if_pos he]
    have hgone : (Registry.mk (delA r.services nm) r.ttl).instancesOf nm = [] := by
      unfold Registry.instancesOf
      rw [show (Registry.mk (delA r.services nm) r.ttl).services
          = delA r.services nm from rfl,
        getA_delA_self hkeys]
    rw [hgone, ← map_snd_filter m (fun i => !(matchesHostPort host port i))]
    simp only [h2, List.map_nil]
  · rw [if_neg he, instancesOf_mk_setA]
    exact map_snd_filter m (fun i => !(matchesHostPort host port i))

/-- Witness for C7: removing by `host = "h"` deletes the two instances on
host `h` and keeps the one on host `g`. -/
theorem C7_unregister_by_address_witness :
    ((Registry.mk [("a", [("i1", Instance.mk "i1" "a" "h" 1 none [] 5),
        ("i2", Instance.mk "i2" "a" "h" 2 none [] 6),
        ("i3", Instance.mk "i3" "a" "g" 3 none [] 7)])] 15000).unregister
        (UnregisterArgs.mk (some "a") none (some "h") none)).1.instancesOf "a"
      = [Instance.mk "i3" "a" "g" 3 none [] 7] := by
  have h := C7_unregister_by_address
    (Registry.mk [("a", [("i1", Instance.mk "i1" "a" "h" 1 none [] 5),
      ("i2", Instance.mk "i2" "a" "h" 2 none [] 6),
      ("i3", Instance.mk "i3" "a" "g" 3 none [] 7)])] 15000)
    "a" (some "h") none (by decide) (by decide)
    [("i1", Instance.mk "i1" "a" "h" 1 none [] 5),
      ("i2", Instance.mk "i2" "a" "h" 2 none [] 6),
      ("i3", Instance.mk "i3" "a" "g" 3 none [] 7)] (by decide)
  rw [h.2]
  decide

theorem cleanServices_idem (s : List (String × InstMap)) (q : Instance → Bool) :
    cleanServices (cleanServices s q) q = cleanServices s q := by
  have hmem : ∀ p ∈ cleanServices s q,
      p.2.filter (fun e => q e.2) = p.2 ∧ (!p.2.isEmpty) = true := by
    intro p hp
    unfold cleanServices at hp
    rcases List.mem_filter.mp hp with ⟨hp1, hP⟩
    rcases List.mem_map.mp hp1 with ⟨p0, _, hpe⟩
    refine ⟨?_, hP⟩
    rw [← hpe]
    dsimp only
    rw [List.filter_filter]
    simp only [Bool.and_self]
  have hmap : (cleanServices s q).map (fun p => (p.1, p.2.filter (fun e => q e.2)))
      = cleanServices s q := by
    have h1 : (cleanServices s q).map (fun p => (p.1, p.2.filter (fun e => q e.2)))
        = (cleanServices s q).map id :=
      List.map_congr_left (fun p hp => by rw [(hmem p hp).1]; rfl)
    rw [h1, List.map_id]
  have hfil : (cleanServices s q).filter (fun p => !p.2.isEmpty) = cleanServices s q :=
    List.filter_eq_self.mpr (fun p hp => (hmem p hp).2)
  show ((cleanServices s q).map
      (fun p => (p.1, p.2.filter (fun e => q e.2)))).filter (fun p => !p.2.isEmpty)
    = cleanServices s q
  rw [hmap, hfil]

/-- Claim C9: running `cleanupExpired` twice at the same time gives the same
state as running it once; moreover on an invariant-satisfying state with no
expired instance a run changes nothing. -/
theorem C9_cleanup_idempotent (r : Registry) (now : Int) :
    (r.cleanupExpired now).cleanupExpired now = r.cleanupExpired now
    ∧ (WF r → (∀ p ∈ r.services, ∀ e ∈ p.2, now - e.2.lastSeen ≤ r.ttl) →
        r.cleanupExpired now = r) := by
  constructor
  · show Registry.mk
        (cleanServices (cleanServices r.services (fun i => !(r.ttl < now - i.lastSeen)))
          (fun i => !(r.ttl < now - i.lastSeen)))
        r.ttl
      = Registry.mk
        (cleanServices r.services (fun i => !(r.ttl < now - i.lastSeen))) r.ttl
    rw [cleanServices_idem]
  · intro hWF hfresh
    have hq : ∀ p ∈ r.services,
        p.2.filter (fun e => !(r.ttl < now - e.2.lastSeen)) = p.2 := by
      intro p hp
      apply List.filter_eq_self.mpr
      intro e he
      simp only [Bool.not_eq_true', decide_eq_false_iff_not, not_lt]
      exact hfresh p hp e he
    have hmap : r.services.map
        (fun p => (p.1, p.2.filter (fun e => !(r.ttl < now - e.2.lastSeen))))
        = r.services := by
      have h1 : r.services.map
          (fun p => (p.1, p.2.filter (fun e => !(r.ttl < now - e.2.lastSeen))))
          = r.services.map id :=
        List.map_congr_left (fun p hp => by rw [hq p hp]; rfl)
      rw [h1, List.map_id]
    have hfil : r.services.filter (fun p => !p.2.isEmpty) = r.services := by
      apply List.filter_eq_self.mpr
      intro p hp
      have hpn := hWF p hp
      simp only [Bool.not_eq_true']
      cases hpe : p.2 with
      | nil => exact absurd hpe hpn
      | cons a l => rfl
    show Registry.mk
        ((r.services.map
          (fun p => (p.1, p.2.filter (fun e => !(r.ttl < now - e.2.lastSeen))))).filter
          (fun p => !p.2.isEmpty))
        r.ttl
      = r
    rw [hmap, hfil]


/-- Witness for C9: a fresh single-instance state is left unchanged by a
cleanup run with no expired instances. -/
theorem C9_cleanup_idempotent_witness :
    (Registry.mk [("a", [("x", Instance.mk "x" "a" "h" 1 none [] 10)])] 15000).cleanupExpired 20
      = Registry.mk [("a", [("x", Instance.mk "x" "a" "h" 1 none [] 10)])] 15000 :=
  (C9_cleanup_idempotent
    (Registry.mk [("a", [("x", Instance.mk "x" "a" "h" 1 none [] 10)])] 15000) 20).2
    (by decide) (by decide)

/-- Claim C10: the heartbeat route answers 400 with the validation message
and an untouched registry whenever `name` or `id` is missing or empty, and
produces the `null` result only for a well-formed request naming an unknown
service or instance id. -/
theorem C10_heartbeat_route (r : Registry) (name id : Option String) (now : Int) :
    ((truthyS name && truthyS id) = false →
      postHeartbeat r name id now
        = (r, HbResponse.badRequest "name and id required for heartbeat"))
    ∧ ((postHeartbeat r name id now).2 = HbResponse.ok none →
      truthyS name = true ∧ truthyS id = true
        ∧ r.getInst (name.getD "") (id.getD "") = none) := by
  have hbad : (truthyS name && truthyS id) = false →
      postHeartbeat r name id now
        = (r, HbResponse.badRequest "name and id required for heartbeat") := by
    intro hg
    unfold postHeartbeat Registry.heartbeat
    rw [hg]
    rfl
  refine ⟨hbad, ?_⟩
  intro hok
  by_cases hg : (truthyS name && truthyS id) = false
  · rw [hbad hg] at hok
    simp at hok
  · rw [Bool.not_eq_false] at hg
    have hg2 : truthyS name = true ∧ truthyS id = true := by simpa using hg
    obtain ⟨hn, hi⟩ := hg2
    cases name with
    | none => simp [truthyS] at hn
    | some n =>
      cases id with
      | none => simp [truthyS] at hi
      | some i =>
        refine ⟨hn, hi, ?_⟩
        show r.getInst n i = none
        cases hsrv : getA r.services n with
        | none =>
          unfold Registry.getInst
          rw [hsrv]
        | some m =>
          cases hinst : getA m i with
          | none =>
            unfold Registry.getInst
            rw [hsrv]
            exact hinst
          | some inst =>
            exfalso
            have hf := heartbeat_found r n i now hn hi m inst hsrv hinst
            unfold postHeartbeat at hok
            rw [hf] at hok
            simp at hok

/-- Witness for C10: a heartbeat request with a missing `id` is answered with
the 400 validation error and the registry is unchanged. -/
theorem C10_heartbeat_route_witness :
    postHeartbeat (Registry.mk [] 15000) (some "a") none 0
      = (Registry.mk [] 15000, HbResponse.badRequest "name and id required for heartbeat") :=
  (C10_heartbeat_route (Registry.mk [] 15000) (some "a") none 0).1 (by decide)
